import Mathlib

/-!
Verification of the CSV roster transcoder of the teacher-platform
repository (source: `src/utils/csvUtils`-style module holding
`exportStudentsToCSV`, `parseCSVFile`, `parseCSVText`, `parseCSVRow`,
`parseStudentRow`).

JavaScript strings are modelled as Lean `String` (a wrapped `List Char`),
and every JavaScript string primitive the code uses (`split`, `trim`,
`toLowerCase`, the `/^"|"$/g` replace, the phone regex test) is translated
explicitly into a structurally recursive Lean function, so that all
definitions evaluate by kernel reduction.
-/

/-- Set of characters matched by JavaScript `\s` (and removed by
`String.prototype.trim`): tab, LF, VT, FF, CR, space, NBSP, and the
Unicode space separators. -/
def jsSpace (c : Char) : Bool :=
  let n := c.toNat
  n == 9 || n == 10 || n == 11 || n == 12 || n == 13 || n == 32 ||
  n == 0xa0 || n == 0x1680 ||
  (decide (0x2000 ≤ n) && decide (n ≤ 0x200a)) ||
  n == 0x2028 || n == 0x2029 || n == 0x202f || n == 0x205f ||
  n == 0x3000 || n == 0xfeff

/-- List-level model of JavaScript `String.prototype.trim`. -/
def jsTrimList (l : List Char) : List Char :=
  ((l.dropWhile jsSpace).reverse.dropWhile jsSpace).reverse

/-- Model of JavaScript `String.prototype.trim`. -/
def jsTrim (s : String) : String :=
  String.mk (jsTrimList s.data)

/-- Model of JavaScript `String.prototype.toLowerCase` (the code only ever
lower-cases ASCII header names, so ASCII lower-casing is faithful here). -/
def jsToLower (s : String) : String :=
  String.mk (s.data.map Char.toLower)

/-- List-level model of JavaScript `text.split('\n')`: split a character
list at every newline; the empty input yields one empty segment, exactly
as `"".split('\n')` yields `[""]`. -/
def splitChars : List Char → List (List Char)
  | [] => [[]]
  | c :: rest =>
    if c = '\n' then [] :: splitChars rest
    else
      match splitChars rest with
      | [] => [[c]]
      | l :: ls => (c :: l) :: ls

/-- Model of JavaScript `text.split('\n')`. -/
def jsSplitNewline (s : String) : List String :=
  (splitChars s.data).map String.mk

/-- Model of JavaScript `Array.prototype.join(sep)`. -/
def joinSep (sep : String) : List String → String
  | [] => ""
  | [x] => x
  | x :: xs => x ++ sep ++ joinSep sep xs

/-- List-level model of `value.replace(/^"|"$/g, '')`: drop one leading
double quote if present, then one trailing double quote if present. -/
def stripQuotesList (l : List Char) : List Char :=
  let l1 := if l.head? = some '"' then l.tail else l
  if l1.getLast? = some '"' then l1.dropLast else l1

/-- Model of `value.replace(/^"|"$/g, '')`. -/
def stripQuotes (s : String) : String :=
  String.mk (stripQuotesList s.data)

/-- Character class `[\d\s\-\(\)]` of the phone regex. -/
def phoneClassChar (c : Char) : Bool :=
  c.isDigit || jsSpace c || c == '-' || c == '(' || c == ')'

/-- Model of `/^[\+]?[\d\s\-\(\)]{7,}$/.test(phone)`: an optional leading
plus sign, then seven or more characters of the class (since `+` is not in
the class, the optional group deterministically consumes a leading `+`). -/
def jsPhoneTest (s : String) : Bool :=
  match s.data with
  | '+' :: rest => decide (7 ≤ rest.length) && rest.all phoneClassChar
  | cs => decide (7 ≤ cs.length) && cs.all phoneClassChar

/-! ## Data model (from `StudentsContext.tsx`) -/

/-- Mirror of the TypeScript interface `CreateStudentData`. -/
structure CreateStudentData where
  firstName : String
  lastName : String
  phone : String
deriving DecidableEq, Repr

/-- Mirror of the status union `'active' | 'inactive'` of `Student`. -/
inductive StudentStatus where
  | active
  | inactive
deriving DecidableEq, Repr

/-- String carried by each `StudentStatus` value in the TypeScript code. -/
def statusStr : StudentStatus → String
  | .active => "active"
  | .inactive => "inactive"

/-- Mirror of the TypeScript interface `Student`. -/
structure Student where
  id : String
  firstName : String
  lastName : String
  phone : String
  enrollmentDate : String
  status : StudentStatus
  userId : String
deriving DecidableEq, Repr

/-- Mirror of the TypeScript interface `ImportResult`; optional fields of
the interface become `Option`s. -/
structure ImportResult where
  success : Bool
  data : Option (List CreateStudentData)
  errors : Option (List String)
  invalidRows : Option (List Nat)
deriving DecidableEq, Repr

/-! ## Export path (`exportStudentsToCSV`) -/

/-- The fixed header list of `exportStudentsToCSV`. -/
def exportHeaders : List String :=
  ["First Name", "Last Name", "Phone", "Status", "Enrollment Date"]

/-- The five field values written for one student, in column order. -/
def studentRowFields (s : Student) : List String :=
  [s.firstName, s.lastName, s.phone, statusStr s.status, s.enrollmentDate]

/-- Unconditional double-quoting of one exported field value. -/
def quoteField (v : String) : String :=
  "\"" ++ v ++ "\""

/-- One exported CSV line for one student. -/
def studentRowLine (s : Student) : String :=
  joinSep "," ((studentRowFields s).map quoteField)

/-- The string `csvContent` built by `exportStudentsToCSV`: the joined
header line followed by one quoted row per student, joined by newlines. -/
def exportCSVContent (students : List Student) : String :=
  joinSep "\n" (joinSep "," exportHeaders :: students.map studentRowLine)

/-- Model of `exportStudentsToCSV`: for an empty roster the function only
alerts and writes nothing (`none`); otherwise it downloads a file holding
`exportCSVContent students`. -/
def exportStudentsToCSV (students : List Student) : Option String :=
  if students.length = 0 then none else some (exportCSVContent students)

/-! ## Field splitter (`parseCSVRow`) -/

/-- Model of the character loop of `parseCSVRow`. The first argument is
the unread rest of the line; `inQuotes`, `current` and `result` are the
loop variables. A double quote inside quoted mode followed by another
double quote is an escaped quote (both characters consumed, one literal
quote appended); otherwise a double quote toggles `inQuotes`; a comma
outside quotes emits the trimmed current field; anything else is
accumulated. -/
def parseCSVRowAux : List Char → Bool → String → List String → List String
  | [], _, current, result => result ++ [jsTrim current]
  | '"' :: '"' :: rest, true, current, result =>
    parseCSVRowAux rest true (current.push '"') result
  | '"' :: rest, inQuotes, current, result =>
    parseCSVRowAux rest (!inQuotes) current result
  | ',' :: rest, false, current, result =>
    parseCSVRowAux rest false "" (result ++ [jsTrim current])
  | c :: rest, inQuotes, current, result =>
    parseCSVRowAux rest inQuotes (current.push c) result

/-- Model of `parseCSVRow`. -/
def parseCSVRow (row : String) : List String :=
  parseCSVRowAux row.data false "" []

/-! ## Row validation (`parseStudentRow`) -/

/-- List of `(lower-cased trimmed header, index)` pairs; JavaScript object
assignment in the `forEach` lets a later duplicate header win, so lookup
is by last occurrence (`lookupLast` below). -/
def numberRows {α : Type} (i : Nat) : List α → List (Nat × α)
  | [] => []
  | x :: xs => (i, x) :: numberRows (i + 1) xs

/-- The `headerMap` object built by `parseCSVText` from the header cells. -/
def buildHeaderMap (headers : List String) : List (String × Nat) :=
  (numberRows 0 headers).map (fun p => (jsTrim (jsToLower p.2), p.1))

/-- Lookup of `headerMap[key]`: the last binding for `key` wins, as with
repeated JavaScript property assignment. -/
def lookupLast (m : List (String × Nat)) (key : String) : Option Nat :=
  ((m.filter (fun p => p.1 == key)).getLast?).map (fun p => p.2)

/-- Model of `rowData[headerMap[key]]?.replace(/^"|"$/g, '').trim()`; a
missing column index or an out-of-range cell gives `undefined`, which the
validation treats exactly like the empty string. -/
def getCell (rowData : List String) (headerMap : List (String × Nat))
    (key : String) : String :=
  match lookupLast headerMap key with
  | none => ""
  | some idx => jsTrim (stripQuotes (rowData.getD idx ""))

/-- Model of `parseStudentRow`: `throw` becomes `Except.error`, and the
TypeScript return type `CreateStudentData | null` becomes
`Option CreateStudentData` (the function body only ever returns a
record, never `null`). -/
def parseStudentRow (rowData : List String) (headerMap : List (String × Nat)) :
    Except String (Option CreateStudentData) :=
  let firstName := getCell rowData headerMap "first name"
  let lastName := getCell rowData headerMap "last name"
  let phone := getCell rowData headerMap "phone"
  if firstName = "" ∨ lastName = "" ∨ phone = "" then
    .error ("Missing required fields: " ++ joinSep ", "
      ((if firstName = "" then ["First Name"] else []) ++
       (if lastName = "" then ["Last Name"] else []) ++
       (if phone = "" then ["Phone"] else [])))
  else if jsPhoneTest phone = false then
    .error ("Invalid phone number format: " ++ phone)
  else
    .ok (some { firstName := firstName, lastName := lastName, phone := phone })

/-! ## Parse driver (`parseCSVText`) -/

/-- The data-row loop of `parseCSVText`, processing the lines after the
header; `i` is the index of the current line within the non-empty lines
(the loop starts at `i = 1`), and a failing line is reported as row
`i + 1`. Returns `(data, errors, invalidRows)`. -/
def processRows (headerMap : List (String × Nat)) :
    Nat → List String → List CreateStudentData × List String × List Nat
  | _, [] => ([], [], [])
  | i, line :: rest =>
    let acc := processRows headerMap (i + 1) rest
    let rowData := parseCSVRow line
    if rowData.length = 0 then acc
    else
      match parseStudentRow rowData headerMap with
      | .ok (some s) => (s :: acc.1, acc.2.1, acc.2.2)
      | .ok none => (acc.1, acc.2.1, (i + 1) :: acc.2.2)
      | .error msg =>
        (acc.1, ("Row " ++ Nat.repr (i + 1) ++ ": " ++ msg) :: acc.2.1,
         (i + 1) :: acc.2.2)

/-- The non-empty lines of the input: split on newline, discard lines that
are empty after trimming. -/
def nonEmptyLines (text : String) : List String :=
  (jsSplitNewline text).filter (fun line => jsTrim line != "")

/-- The required headers of `parseCSVText`. -/
def expectedHeaders : List String :=
  ["first name", "last name", "phone"]

/-- The header map `parseCSVText` builds from the first non-empty line. -/
def headerMapOfText (text : String) : List (String × Nat) :=
  buildHeaderMap (parseCSVRow ((nonEmptyLines text).getD 0 ""))

/-- The `missingHeaders` list of `parseCSVText`: required headers absent
from the header map. -/
def missingRequired (text : String) : List String :=
  expectedHeaders.filter (fun h => (lookupLast (headerMapOfText text) h).isNone)

/-- The structural error message for fewer than two non-empty lines. -/
def emptyInputMsg : String :=
  "CSV file must contain at least a header row and one data row"

/-- Model of `parseCSVText`. -/
def parseCSVText (text : String) : ImportResult :=
  let lines := nonEmptyLines text
  if lines.length < 2 then
    { success := false, data := none, errors := some [emptyInputMsg],
      invalidRows := none }
  else
    let headerMap := headerMapOfText text
    let missingHeaders := missingRequired text
    if 0 < missingHeaders.length then
      { success := false, data := none,
        errors := some ["Missing required columns: " ++
          joinSep ", " missingHeaders],
        invalidRows := none }
    else
      let res := processRows headerMap 1 (lines.drop 1)
      { success := decide (0 < res.1.length),
        data := some res.1,
        errors := if 0 < res.2.1.length then some res.2.1 else none,
        invalidRows := if 0 < res.2.2.length then some res.2.2 else none }

/-! ## Basic facts about the field splitter -/

/-- The splitter loop only ever appends to the accumulated field list. -/
theorem parseCSVRowAux_length_lt :
    ∀ (cs : List Char) (q : Bool) (cur : String) (res : List String),
      res.length < (parseCSVRowAux cs q cur res).length := by
  intro cs q cur res
  induction cs, q, cur, res using parseCSVRowAux.induct <;>
    simp_all [parseCSVRowAux]
  all_goals omega

/-- The field splitter never returns an empty list: the final field is
pushed unconditionally after the loop. -/
theorem parseCSVRow_length_pos (row : String) : 0 < (parseCSVRow row).length := by
  simpa [parseCSVRow] using parseCSVRowAux_length_lt row.data false "" []

/-! ## Claim C9 — the splitter always yields at least one field -/

/-- C9: for every input line, including the empty string, the field
splitter returns at least one field (the final field is pushed
unconditionally after the loop), so the zero-field skip branch of the
row-parsing loop can never fire. -/
theorem claim_C9 :
    (∀ row : String, 0 < (parseCSVRow row).length) ∧ parseCSVRow "" = [""] := by
  refine ⟨parseCSVRow_length_pos, ?_⟩
  decide

/-! ## Claim C7 — fewer than two non-empty lines aborts the parse -/

/-- C7: whenever fewer than two non-empty lines remain after splitting on
newline and discarding whitespace-only lines, `parseCSVText` fails with
the single `EmptyInput`-class error string and no partial data. -/
theorem claim_C7 (text : String)
    (h : (nonEmptyLines text).length < 2) :
    parseCSVText text =
      { success := false, data := none, errors := some [emptyInputMsg],
        invalidRows := none } := by
  simp only [parseCSVText]
  rw [if_pos h]

/-- Witness for C7 at the two inputs named by the spec: the empty string
and a header-only document. -/
theorem claim_C7_witness :
    ((nonEmptyLines "").length < 2 ∧
      parseCSVText "" =
        { success := false, data := none, errors := some [emptyInputMsg],
          invalidRows := none }) ∧
    ((nonEmptyLines "First Name,Last Name,Phone\n").length < 2 ∧
      parseCSVText "First Name,Last Name,Phone\n" =
        { success := false, data := none, errors := some [emptyInputMsg],
          invalidRows := none }) :=
  ⟨⟨by decide, claim_C7 "" (by decide)⟩,
   ⟨by decide, claim_C7 "First Name,Last Name,Phone\n" (by decide)⟩⟩

/-! ## Claim C8 — missing required headers abort the parse -/

/-- C8: whenever the header line lacks one of the required headers, the
parse fails with a single error listing every absent required header, and
no data rows are processed (`data = none`). -/
theorem claim_C8 (text : String)
    (h2 : 2 ≤ (nonEmptyLines text).length)
    (hmiss : missingRequired text ≠ []) :
    parseCSVText text =
      { success := false, data := none,
        errors := some ["Missing required columns: " ++
          joinSep ", " (missingRequired text)],
        invalidRows := none } := by
  simp only [parseCSVText]
  rw [if_neg (by omega), if_pos (List.length_pos.mpr hmiss)]

/-- Witness for C8 at the spec's example `"Foo,Bar\nA,B"`: the Phone
column is among the reported missing columns. -/
theorem claim_C8_witness :
    (2 ≤ (nonEmptyLines "Foo,Bar\nA,B").length ∧
      missingRequired "Foo,Bar\nA,B" ≠ [] ∧
      "phone" ∈ missingRequired "Foo,Bar\nA,B") ∧
    parseCSVText "Foo,Bar\nA,B" =
      { success := false, data := none,
        errors := some ["Missing required columns: " ++
          joinSep ", " (missingRequired "Foo,Bar\nA,B")],
        invalidRows := none } :=
  ⟨by decide, claim_C8 "Foo,Bar\nA,B" (by decide) (by decide)⟩

/-! ## Characterizing the data-row loop -/

/-- Outcome of one data line that the loop accepts: the produced entry. -/
def acceptedEntry (hm : List (String × Nat)) (line : String) :
    Option CreateStudentData :=
  match parseStudentRow (parseCSVRow line) hm with
  | .ok (some s) => some s
  | _ => none

/-- Whether one data line is accepted by the loop. -/
def rowAccepts (hm : List (String × Nat)) (line : String) : Bool :=
  match parseStudentRow (parseCSVRow line) hm with
  | .ok (some _) => true
  | _ => false

/-- The validation error thrown for one data line, if any. -/
def rowError (hm : List (String × Nat)) (line : String) : Option String :=
  match parseStudentRow (parseCSVRow line) hm with
  | .error m => some m
  | _ => none

/-- Whether one data line makes `parseStudentRow` throw. -/
def rowRejects (hm : List (String × Nat)) (line : String) : Bool :=
  (rowError hm line).isSome

/-- The body of `parseStudentRow` either throws or returns a record; it
never returns `null`. -/
theorem parseStudentRow_ne_ok_none (rowData : List String)
    (hm : List (String × Nat)) :
    parseStudentRow rowData hm ≠ .ok none := by
  simp only [parseStudentRow]
  split_ifs <;> simp

theorem acceptedEntry_isSome (hm : List (String × Nat)) (line : String) :
    (acceptedEntry hm line).isSome = rowAccepts hm line := by
  cases h : parseStudentRow (parseCSVRow line) hm with
  | error m => simp [acceptedEntry, rowAccepts, h]
  | ok s => cases s <;> simp [acceptedEntry, rowAccepts, h]

theorem rowAccepts_eq_not_rejects (hm : List (String × Nat)) (line : String) :
    rowAccepts hm line = !(rowRejects hm line) := by
  cases h : parseStudentRow (parseCSVRow line) hm with
  | error m => simp [rowAccepts, rowRejects, rowError, h]
  | ok s =>
    cases s with
    | none => exact absurd h (parseStudentRow_ne_ok_none _ _)
    | some v => simp [rowAccepts, rowRejects, rowError, h]

theorem numberRows_any {α : Type} (g : α → Bool) :
    ∀ (i : Nat) (l : List α),
      ((numberRows i l).any (fun p => g p.2)) = l.any g := by
  intro i l
  induction l generalizing i with
  | nil => simp [numberRows]
  | cons x t ih => simp [numberRows, ih]

theorem numberRows_mem {α : Type} (d : α) (l : List α) :
    ∀ (i j : Nat), j < l.length → (i + j, l.getD j d) ∈ numberRows i l := by
  induction l with
  | nil => intro i j h; simp at h
  | cons x t ih =>
    intro i j h
    cases j with
    | zero => simp [numberRows]
    | succ j =>
      have hm := ih (i + 1) j (by simpa using h)
      have harith : i + (j + 1) = (i + 1) + j := by omega
      rw [List.getD_cons_succ, harith]
      exact List.mem_cons_of_mem _ hm

theorem filterMap_ne_nil_iff_any {α β : Type} (f : α → Option β) (l : List α) :
    (l.filterMap f ≠ []) ↔ l.any (fun a => (f a).isSome) = true := by
  induction l with
  | nil => simp
  | cons a t ih => cases h : f a <;> simp [List.filterMap_cons, h, ih]

theorem filterMap_length_congr {α β γ : Type} (f : α → Option β)
    (g : α → Option γ) (l : List α)
    (h : ∀ x ∈ l, (f x).isSome = (g x).isSome) :
    (l.filterMap f).length = (l.filterMap g).length := by
  induction l with
  | nil => rfl
  | cons a t ih =>
    have ha := h a (List.mem_cons_self a t)
    have ht := ih (fun x hx => h x (List.mem_cons_of_mem _ hx))
    cases hf : f a <;> cases hg : g a <;>
      simp [hf, hg, List.filterMap_cons, ht] at ha ⊢

/-- The loop of `parseCSVText` over the data lines, described as three
`filterMap`s over the (numbered) data lines. -/
theorem processRows_eq (hm : List (String × Nat)) :
    ∀ (i : Nat) (rows : List String),
      processRows hm i rows =
        (rows.filterMap (acceptedEntry hm),
         (numberRows i rows).filterMap
           (fun p => (rowError hm p.2).map
             (fun m => "Row " ++ Nat.repr (p.1 + 1) ++ ": " ++ m)),
         (numberRows i rows).filterMap
           (fun p => if rowAccepts hm p.2 then none else some (p.1 + 1))) := by
  intro i rows
  induction rows generalizing i with
  | nil => simp [processRows, numberRows]
  | cons line rest ih =>
    have hlen : ¬ (parseCSVRow line).length = 0 := by
      have := parseCSVRow_length_pos line; omega
    cases h : parseStudentRow (parseCSVRow line) hm with
    | error m =>
      simp [processRows, numberRows, List.filterMap_cons, ih, hlen, h,
        acceptedEntry, rowError, rowAccepts]
    | ok s =>
      cases s with
      | none =>
        simp [processRows, numberRows, List.filterMap_cons, ih, hlen, h,
          acceptedEntry, rowError, rowAccepts]
      | some v =>
        simp [processRows, numberRows, List.filterMap_cons, ih, hlen, h,
          acceptedEntry, rowError, rowAccepts]

/-! ## Shape of a structurally valid parse -/

/-- The data lines of the input (everything after the header line). -/
def dataRowsOf (text : String) : List String :=
  (nonEmptyLines text).drop 1

/-- All entries the parse accepts, in input order. -/
def validEntriesOf (text : String) : List CreateStudentData :=
  (dataRowsOf text).filterMap (acceptedEntry (headerMapOfText text))

/-- All row error strings the parse records, in input order. -/
def errEntriesOf (text : String) : List String :=
  (numberRows 1 (dataRowsOf text)).filterMap
    (fun p => (rowError (headerMapOfText text) p.2).map
      (fun m => "Row " ++ Nat.repr (p.1 + 1) ++ ": " ++ m))

/-- All 1-based numbers of rows the parse tags invalid, in input order. -/
def invalidNumbersOf (text : String) : List Nat :=
  (numberRows 1 (dataRowsOf text)).filterMap
    (fun p => if rowAccepts (headerMapOfText text) p.2 then none
              else some (p.1 + 1))

/-- When the structural checks pass, the parse result is determined by
the three row-wise sequences. -/
theorem parseCSVText_structure (text : String)
    (h2 : 2 ≤ (nonEmptyLines text).length)
    (hmiss : missingRequired text = []) :
    parseCSVText text =
      { success := decide (0 < (validEntriesOf text).length),
        data := some (validEntriesOf text),
        errors := if 0 < (errEntriesOf text).length
                  then some (errEntriesOf text) else none,
        invalidRows := if 0 < (invalidNumbersOf text).length
                       then some (invalidNumbersOf text) else none } := by
  simp only [parseCSVText]
  rw [if_neg (by omega), if_neg (by simp [hmiss])]
  simp only [processRows_eq, validEntriesOf, errEntriesOf, invalidNumbersOf,
    dataRowsOf]

theorem errEntry_isSome (hm : List (String × Nat)) (p : Nat × String) :
    ((rowError hm p.2).map
      (fun m => "Row " ++ Nat.repr (p.1 + 1) ++ ": " ++ m)).isSome =
      rowRejects hm p.2 := by
  cases h : rowError hm p.2 <;> simp [rowRejects, h]

theorem invalidNumber_isSome (hm : List (String × Nat)) (p : Nat × String) :
    (if rowAccepts hm p.2 then none else some (p.1 + 1) : Option Nat).isSome =
      rowRejects hm p.2 := by
  rw [rowAccepts_eq_not_rejects]
  cases h : rowRejects hm p.2 <;> simp [h]

theorem validEntriesOf_ne_nil_iff (text : String) :
    validEntriesOf text ≠ [] ↔
      (dataRowsOf text).any (rowAccepts (headerMapOfText text)) = true := by
  rw [validEntriesOf, filterMap_ne_nil_iff_any]
  simp only [acceptedEntry_isSome]

theorem errEntriesOf_ne_nil_iff (text : String) :
    errEntriesOf text ≠ [] ↔
      (dataRowsOf text).any (rowRejects (headerMapOfText text)) = true := by
  rw [errEntriesOf, filterMap_ne_nil_iff_any]
  simp only [errEntry_isSome]
  rw [numberRows_any]

theorem invalidNumbersOf_ne_nil_iff (text : String) :
    invalidNumbersOf text ≠ [] ↔
      (dataRowsOf text).any (rowRejects (headerMapOfText text)) = true := by
  rw [invalidNumbersOf, filterMap_ne_nil_iff_any]
  simp only [invalidNumber_isSome]
  rw [numberRows_any]

/-! ## Claim C3 — partial success policy -/

/-- C3: once the structural checks pass, `success` is true exactly when
at least one row was accepted, the error and invalid-row sequences are
populated exactly when at least one row failed — independent of the
success flag — and the batch is never aborted (`data` is always
present, holding the accepted entries of every processed row). -/
theorem claim_C3 (text : String)
    (h2 : 2 ≤ (nonEmptyLines text).length)
    (hmiss : missingRequired text = []) :
    ((parseCSVText text).success = true ↔
      (dataRowsOf text).any (rowAccepts (headerMapOfText text)) = true) ∧
    ((parseCSVText text).errors.isSome = true ↔
      (dataRowsOf text).any (rowRejects (headerMapOfText text)) = true) ∧
    ((parseCSVText text).invalidRows.isSome = true ↔
      (dataRowsOf text).any (rowRejects (headerMapOfText text)) = true) ∧
    (parseCSVText text).data = some (validEntriesOf text) := by
  rw [parseCSVText_structure text h2 hmiss]
  refine ⟨?_, ?_, ?_, rfl⟩
  · simp only [decide_eq_true_eq, List.length_pos]
    exact validEntriesOf_ne_nil_iff text
  · by_cases hc : 0 < (errEntriesOf text).length
    · simp only [if_pos hc, Option.isSome_some]
      exact iff_of_true trivial
        ((errEntriesOf_ne_nil_iff text).mp (List.length_pos.mp hc))
    · have hnil : errEntriesOf text = [] := by
        by_contra hne; exact hc (List.length_pos.mpr hne)
      simp only [if_neg hc, Option.isSome_none]
      exact iff_of_false (by simp)
        (fun h => ((errEntriesOf_ne_nil_iff text).mpr h) hnil)
  · by_cases hc : 0 < (invalidNumbersOf text).length
    · simp only [if_pos hc, Option.isSome_some]
      exact iff_of_true trivial
        ((invalidNumbersOf_ne_nil_iff text).mp (List.length_pos.mp hc))
    · have hnil : invalidNumbersOf text = [] := by
        by_contra hne; exact hc (List.length_pos.mpr hne)
      simp only [if_neg hc, Option.isSome_none]
      exact iff_of_false (by simp)
        (fun h => ((invalidNumbersOf_ne_nil_iff text).mpr h) hnil)

/-- Witness for C3: a document whose first data row is valid and whose
second data row fails, giving partial success. -/
theorem claim_C3_witness :
    (2 ≤ (nonEmptyLines
        "First Name,Last Name,Phone\nJohn,Doe,555-123-4567\nJane,Smith,abc").length ∧
      missingRequired
        "First Name,Last Name,Phone\nJohn,Doe,555-123-4567\nJane,Smith,abc" = []) ∧
    (((parseCSVText
        "First Name,Last Name,Phone\nJohn,Doe,555-123-4567\nJane,Smith,abc").success = true ↔
      (dataRowsOf
        "First Name,Last Name,Phone\nJohn,Doe,555-123-4567\nJane,Smith,abc").any
        (rowAccepts (headerMapOfText
          "First Name,Last Name,Phone\nJohn,Doe,555-123-4567\nJane,Smith,abc")) = true) ∧
     ((parseCSVText
        "First Name,Last Name,Phone\nJohn,Doe,555-123-4567\nJane,Smith,abc").errors.isSome = true ↔
      (dataRowsOf
        "First Name,Last Name,Phone\nJohn,Doe,555-123-4567\nJane,Smith,abc").any
        (rowRejects (headerMapOfText
          "First Name,Last Name,Phone\nJohn,Doe,555-123-4567\nJane,Smith,abc")) = true) ∧
     ((parseCSVText
        "First Name,Last Name,Phone\nJohn,Doe,555-123-4567\nJane,Smith,abc").invalidRows.isSome = true ↔
      (dataRowsOf
        "First Name,Last Name,Phone\nJohn,Doe,555-123-4567\nJane,Smith,abc").any
        (rowRejects (headerMapOfText
          "First Name,Last Name,Phone\nJohn,Doe,555-123-4567\nJane,Smith,abc")) = true) ∧
     (parseCSVText
        "First Name,Last Name,Phone\nJohn,Doe,555-123-4567\nJane,Smith,abc").data =
       some (validEntriesOf
        "First Name,Last Name,Phone\nJohn,Doe,555-123-4567\nJane,Smith,abc")) :=
  ⟨⟨by decide, by decide⟩,
   claim_C3 "First Name,Last Name,Phone\nJohn,Doe,555-123-4567\nJane,Smith,abc"
     (by decide) (by decide)⟩

/-! ## Claim C10 — errors and invalid rows correspond one-to-one -/

/-- C10: `parseStudentRow` never returns `null` (so the branch tagging a
row invalid without recording an error is dead), and consequently, past
the structural checks, the recorded error strings and invalid row numbers
have equal length and are present together. -/
theorem claim_C10 (text : String)
    (h2 : 2 ≤ (nonEmptyLines text).length)
    (hmiss : missingRequired text = []) :
    (∀ (rowData : List String) (hm : List (String × Nat))
        (r : Option CreateStudentData),
        parseStudentRow rowData hm = .ok r → r.isSome = true) ∧
    ((parseCSVText text).errors.getD []).length =
      ((parseCSVText text).invalidRows.getD []).length ∧
    (parseCSVText text).errors.isSome = (parseCSVText text).invalidRows.isSome := by
  have hlen : (errEntriesOf text).length = (invalidNumbersOf text).length := by
    apply filterMap_length_congr
    intro p _
    rw [errEntry_isSome, invalidNumber_isSome]
  refine ⟨?_, ?_, ?_⟩
  · intro rowData hm r h
    cases r with
    | none => exact absurd h (parseStudentRow_ne_ok_none _ _)
    | some v => rfl
  · rw [parseCSVText_structure text h2 hmiss]
    by_cases hc : 0 < (errEntriesOf text).length
    · rw [if_pos hc, if_pos (by omega)]
      simpa using hlen
    · rw [if_neg hc, if_neg (by omega)]
      rfl
  · rw [parseCSVText_structure text h2 hmiss]
    by_cases hc : 0 < (errEntriesOf text).length
    · rw [if_pos hc, if_pos (by omega)]
      rfl
    · rw [if_neg hc, if_neg (by omega)]
      rfl

/-- Witness for C10 at a document with one failing data row. -/
theorem claim_C10_witness :
    (2 ≤ (nonEmptyLines "First Name,Last Name,Phone\nJohn,Doe,abc").length ∧
      missingRequired "First Name,Last Name,Phone\nJohn,Doe,abc" = []) ∧
    ((∀ (rowData : List String) (hm : List (String × Nat))
        (r : Option CreateStudentData),
        parseStudentRow rowData hm = .ok r → r.isSome = true) ∧
     ((parseCSVText "First Name,Last Name,Phone\nJohn,Doe,abc").errors.getD []).length =
       ((parseCSVText "First Name,Last Name,Phone\nJohn,Doe,abc").invalidRows.getD []).length ∧
     (parseCSVText "First Name,Last Name,Phone\nJohn,Doe,abc").errors.isSome =
       (parseCSVText "First Name,Last Name,Phone\nJohn,Doe,abc").invalidRows.isSome) :=
  ⟨⟨by decide, by decide⟩,
   claim_C10 "First Name,Last Name,Phone\nJohn,Doe,abc" (by decide) (by decide)⟩

/-! ## Claim C5 — missing required fields -/

/-- The split cells of the `j`-th data row (0-based) of the input. -/
def rowDataOf (text : String) (j : Nat) : List String :=
  parseCSVRow ((dataRowsOf text).getD j "")

/-- The extracted cell of the `j`-th data row under a required header. -/
def cellOf (text : String) (j : Nat) (key : String) : String :=
  getCell (rowDataOf text j) (headerMapOfText text) key

/-- The names in the `Missing required fields` message for row `j`:
exactly the required columns whose extracted value is empty, in the fixed
First Name, Last Name, Phone order. -/
def missingNamesOf (text : String) (j : Nat) : List String :=
  (if cellOf text j "first name" = "" then ["First Name"] else []) ++
  (if cellOf text j "last name" = "" then ["Last Name"] else []) ++
  (if cellOf text j "phone" = "" then ["Phone"] else [])

theorem parseStudentRow_missing (rowData : List String)
    (hm : List (String × Nat))
    (h : getCell rowData hm "first name" = "" ∨
      getCell rowData hm "last name" = "" ∨ getCell rowData hm "phone" = "") :
    parseStudentRow rowData hm =
      .error ("Missing required fields: " ++ joinSep ", "
        ((if getCell rowData hm "first name" = "" then ["First Name"] else []) ++
         (if getCell rowData hm "last name" = "" then ["Last Name"] else []) ++
         (if getCell rowData hm "phone" = "" then ["Phone"] else []))) := by
  simp only [parseStudentRow]
  rw [if_pos h]

/-- Shared consequence of a throwing data row: its message is recorded
with the `Row n:` prefix for the 1-based row number `j + 2`, that number
is tagged invalid, and the parse still processes every other row. -/
theorem row_error_reported (text : String) (j : Nat) (msg : String)
    (h2 : 2 ≤ (nonEmptyLines text).length)
    (hmiss : missingRequired text = [])
    (hj : j < (dataRowsOf text).length)
    (herr0 : parseStudentRow (rowDataOf text j) (headerMapOfText text) =
      .error msg) :
    ("Row " ++ Nat.repr (j + 2) ++ ": " ++ msg)
      ∈ (parseCSVText text).errors.getD [] ∧
    (j + 2) ∈ (parseCSVText text).invalidRows.getD [] ∧
    (parseCSVText text).data = some (validEntriesOf text) := by
  have herr := herr0
  simp only [rowDataOf] at herr
  have hnum : (j + 1, (dataRowsOf text).getD j "") ∈
      numberRows 1 (dataRowsOf text) := by
    have := numberRows_mem "" (dataRowsOf text) 1 j hj
    rwa [show (1 : Nat) + j = j + 1 from by omega] at this
  have hmemE : ("Row " ++ Nat.repr (j + 2) ++ ": " ++ msg)
      ∈ errEntriesOf text := by
    rw [errEntriesOf]
    apply List.mem_filterMap.mpr
    refine ⟨(j + 1, (dataRowsOf text).getD j ""), hnum, ?_⟩
    show ((rowError (headerMapOfText text) ((dataRowsOf text).getD j "")).map
      (fun m => "Row " ++ Nat.repr (j + 1 + 1) ++ ": " ++ m)) = _
    simp only [rowError]
    rw [herr]
    rfl
  have hmemI : (j + 2) ∈ invalidNumbersOf text := by
    rw [invalidNumbersOf]
    apply List.mem_filterMap.mpr
    refine ⟨(j + 1, (dataRowsOf text).getD j ""), hnum, ?_⟩
    show (if rowAccepts (headerMapOfText text) ((dataRowsOf text).getD j "")
      then none else some (j + 1 + 1)) = _
    simp only [rowAccepts, herr]
    simp
  rw [parseCSVText_structure text h2 hmiss]
  refine ⟨?_, ?_, rfl⟩
  · rw [if_pos (List.length_pos.mpr (List.ne_nil_of_mem hmemE))]
    exact hmemE
  · rw [if_pos (List.length_pos.mpr (List.ne_nil_of_mem hmemI))]
    exact hmemI

/-- C5: a data row with an empty required value is reported with a
`Missing required fields` error naming exactly the empty columns, its
1-based row number (header is row 1, so data row `j` is row `j + 2`) is
tagged invalid, and the parse still processes every other row. -/
theorem claim_C5 (text : String) (j : Nat)
    (h2 : 2 ≤ (nonEmptyLines text).length)
    (hmiss : missingRequired text = [])
    (hj : j < (dataRowsOf text).length)
    (he : cellOf text j "first name" = "" ∨ cellOf text j "last name" = "" ∨
      cellOf text j "phone" = "") :
    ("Row " ++ Nat.repr (j + 2) ++ ": " ++
        ("Missing required fields: " ++ joinSep ", " (missingNamesOf text j)))
      ∈ (parseCSVText text).errors.getD [] ∧
    (j + 2) ∈ (parseCSVText text).invalidRows.getD [] ∧
    (parseCSVText text).data = some (validEntriesOf text) :=
  row_error_reported text j
    ("Missing required fields: " ++ joinSep ", " (missingNamesOf text j))
    h2 hmiss hj (parseStudentRow_missing _ _ he)

/-- Witness for C5 at the spec's example: the second data row has an
empty phone cell, so the failing row is row 3 and only `Phone` is named. -/
theorem claim_C5_witness :
    (2 ≤ (nonEmptyLines
        "First Name,Last Name,Phone\nJohn,Doe,555-123-4567\nJane,Smith,").length ∧
      missingRequired
        "First Name,Last Name,Phone\nJohn,Doe,555-123-4567\nJane,Smith," = [] ∧
      1 < (dataRowsOf
        "First Name,Last Name,Phone\nJohn,Doe,555-123-4567\nJane,Smith,").length ∧
      cellOf "First Name,Last Name,Phone\nJohn,Doe,555-123-4567\nJane,Smith," 1
        "phone" = "" ∧
      missingNamesOf
        "First Name,Last Name,Phone\nJohn,Doe,555-123-4567\nJane,Smith," 1 =
        ["Phone"] ∧
      (parseCSVText
        "First Name,Last Name,Phone\nJohn,Doe,555-123-4567\nJane,Smith,").success
        = true) ∧
    (("Row " ++ Nat.repr 3 ++ ": " ++
        ("Missing required fields: " ++ joinSep ", " (missingNamesOf
          "First Name,Last Name,Phone\nJohn,Doe,555-123-4567\nJane,Smith," 1)))
      ∈ (parseCSVText
          "First Name,Last Name,Phone\nJohn,Doe,555-123-4567\nJane,Smith,").errors.getD [] ∧
     3 ∈ (parseCSVText
        "First Name,Last Name,Phone\nJohn,Doe,555-123-4567\nJane,Smith,").invalidRows.getD [] ∧
     (parseCSVText
        "First Name,Last Name,Phone\nJohn,Doe,555-123-4567\nJane,Smith,").data =
       some (validEntriesOf
        "First Name,Last Name,Phone\nJohn,Doe,555-123-4567\nJane,Smith,")) :=
  ⟨⟨by decide, by decide, by decide, by decide, by decide, by decide⟩,
   claim_C5 "First Name,Last Name,Phone\nJohn,Doe,555-123-4567\nJane,Smith," 1
     (by decide) (by decide) (by decide) (Or.inr (Or.inr (by decide)))⟩

/-! ## Claim C6 — the phone shape check -/

/-- Declarative phone shape: an optional leading plus sign followed by a
body of at least seven characters, each of which is a digit, a whitespace
character, a hyphen, a left parenthesis or a right parenthesis. -/
def phoneShapeOk (s : String) : Prop :=
  ∃ body : List Char, (s.data = body ∨ s.data = '+' :: body) ∧
    7 ≤ body.length ∧
    ∀ c ∈ body,
      (c.isDigit = true ∨ jsSpace c = true ∨ c = '-' ∨ c = '(' ∨ c = ')')

theorem phoneClassChar_iff (c : Char) :
    phoneClassChar c = true ↔
      (c.isDigit = true ∨ jsSpace c = true ∨ c = '-' ∨ c = '(' ∨ c = ')') := by
  simp only [phoneClassChar, Bool.or_eq_true, beq_iff_eq]
  tauto

theorem jsPhoneTest_iff (s : String) :
    jsPhoneTest s = true ↔ phoneShapeOk s := by
  rw [jsPhoneTest.eq_def]
  split
  next rest heq =>
    constructor
    · intro h
      rw [Bool.and_eq_true, decide_eq_true_eq, List.all_eq_true] at h
      exact ⟨rest, Or.inr heq, h.1,
        fun c hc => (phoneClassChar_iff c).mp (h.2 c hc)⟩
    · rintro ⟨body, hb | hb, h7, hall⟩
      · rw [heq] at hb
        have hplus : '+' ∈ body := by
          rw [← hb]; exact List.mem_cons_self _ _
        rcases hall '+' hplus with h | h | h | h | h <;>
          exact absurd h (by decide)
      · rw [heq] at hb
        have hrb : rest = body := by
          exact (List.cons.injEq _ _ _ _ ▸ hb).2
        subst hrb
        rw [Bool.and_eq_true, decide_eq_true_eq, List.all_eq_true]
        exact ⟨h7, fun c hc => (phoneClassChar_iff c).mpr (hall c hc)⟩
  next _cs hne =>
    constructor
    · intro h
      rw [Bool.and_eq_true, decide_eq_true_eq, List.all_eq_true] at h
      exact ⟨s.data, Or.inl rfl, h.1,
        fun c hc => (phoneClassChar_iff c).mp (h.2 c hc)⟩
    · rintro ⟨body, hb | hb, h7, hall⟩
      · rw [hb, Bool.and_eq_true, decide_eq_true_eq, List.all_eq_true]
        exact ⟨h7, fun c hc => (phoneClassChar_iff c).mpr (hall c hc)⟩
      · exact absurd hb (fun hx => hne body hx)

theorem parseStudentRow_of_nonempty (rowData : List String)
    (hm : List (String × Nat))
    (hf : getCell rowData hm "first name" ≠ "")
    (hl : getCell rowData hm "last name" ≠ "")
    (hp : getCell rowData hm "phone" ≠ "") :
    parseStudentRow rowData hm =
      if jsPhoneTest (getCell rowData hm "phone") = false
      then .error ("Invalid phone number format: " ++
        getCell rowData hm "phone")
      else .ok (some { firstName := getCell rowData hm "first name",
                       lastName := getCell rowData hm "last name",
                       phone := getCell rowData hm "phone" }) := by
  simp only [parseStudentRow]
  rw [if_neg (by tauto)]

/-- C6 (amended: the character class of the phone check contains every
whitespace character, not only the space character): for a data row whose
three required extracted values are non-empty, the row is accepted with
exactly those values if and only if the phone matches the shape `optional
leading plus sign, then 7 or more characters drawn from digits,
whitespace, hyphen and parentheses`; on failure, parse records an
`Invalid phone number format` error carrying the offending value, tags
the row's 1-based number invalid, and keeps processing the other rows. -/
theorem claim_C6 (text : String) (j : Nat)
    (h2 : 2 ≤ (nonEmptyLines text).length)
    (hmiss : missingRequired text = [])
    (hj : j < (dataRowsOf text).length)
    (hf : cellOf text j "first name" ≠ "")
    (hl : cellOf text j "last name" ≠ "")
    (hp : cellOf text j "phone" ≠ "") :
    (parseStudentRow (rowDataOf text j) (headerMapOfText text) =
        .ok (some { firstName := cellOf text j "first name",
                    lastName := cellOf text j "last name",
                    phone := cellOf text j "phone" }) ↔
      phoneShapeOk (cellOf text j "phone")) ∧
    (¬ phoneShapeOk (cellOf text j "phone") →
      ("Row " ++ Nat.repr (j + 2) ++ ": " ++
          ("Invalid phone number format: " ++ cellOf text j "phone"))
        ∈ (parseCSVText text).errors.getD [] ∧
      (j + 2) ∈ (parseCSVText text).invalidRows.getD [] ∧
      (parseCSVText text).data = some (validEntriesOf text)) := by
  have hstep : parseStudentRow (rowDataOf text j) (headerMapOfText text) =
      if jsPhoneTest (cellOf text j "phone") = false
      then .error ("Invalid phone number format: " ++ cellOf text j "phone")
      else .ok (some { firstName := cellOf text j "first name",
                       lastName := cellOf text j "last name",
                       phone := cellOf text j "phone" }) :=
    parseStudentRow_of_nonempty _ _ hf hl hp
  constructor
  · by_cases ht : jsPhoneTest (cellOf text j "phone") = true
    · rw [hstep, if_neg (by simp [ht])]
      exact iff_of_true rfl ((jsPhoneTest_iff _).mp ht)
    · have ht' : jsPhoneTest (cellOf text j "phone") = false :=
        Bool.eq_false_iff.mpr ht
      rw [hstep, if_pos ht']
      exact iff_of_false (by simp)
        (fun hs => ht ((jsPhoneTest_iff _).mpr hs))
  · intro hns
    have ht' : jsPhoneTest (cellOf text j "phone") = false := by
      cases h : jsPhoneTest (cellOf text j "phone") with
      | false => rfl
      | true => exact absurd ((jsPhoneTest_iff _).mp h) hns
    have herr : parseStudentRow (rowDataOf text j) (headerMapOfText text) =
        .error ("Invalid phone number format: " ++ cellOf text j "phone") := by
      rw [hstep, if_pos ht']
    exact row_error_reported text j
      ("Invalid phone number format: " ++ cellOf text j "phone")
      h2 hmiss hj herr

/-- The phone pattern exactly as the claim words it: an optional leading
plus sign, then seven or more characters drawn from the set consisting of
digits, the space character, the hyphen, and the two parentheses. -/
def claimC6PatternChar (c : Char) : Bool :=
  c.isDigit || c == ' ' || c == '-' || c == '(' || c == ')'

/-- Matcher for the claim's literal pattern (space only, no other
whitespace characters). -/
def claimC6Pattern (s : String) : Bool :=
  match s.data with
  | '+' :: rest => decide (7 ≤ rest.length) && rest.all claimC6PatternChar
  | cs => decide (7 ≤ cs.length) && cs.all claimC6PatternChar

/-- Counterexample to C6 as stated: a phone value containing a tab
character is accepted by the code (the regex class `\s` matches any
whitespace character), yet it does not match the claim's pattern, whose
character set contains only the space character. -/
theorem claim_C6_counterexample :
    (parseCSVText "First Name,Last Name,Phone\nJohn,Doe,123\t45678").data =
      some [{ firstName := "John", lastName := "Doe", phone := "123\t45678" }] ∧
    (parseCSVText "First Name,Last Name,Phone\nJohn,Doe,123\t45678").errors =
      none ∧
    claimC6Pattern "123\t45678" = false := by
  decide

/-- Input used by the witness of C6: one data row whose phone value is
the spec's example `+1 (555) 123-4567`. -/
def c6WitnessText : String :=
  "First Name,Last Name,Phone\nJohn,Doe,+1 (555) 123-4567"

/-- Witness for C6 at a document whose only data row carries the phone
value `+1 (555) 123-4567` named by the spec, together with the two
concrete shape-check facts the spec names. -/
theorem claim_C6_witness :
    (2 ≤ (nonEmptyLines c6WitnessText).length ∧
      missingRequired c6WitnessText = [] ∧
      0 < (dataRowsOf c6WitnessText).length ∧
      cellOf c6WitnessText 0 "phone" = "+1 (555) 123-4567" ∧
      jsPhoneTest "+1 (555) 123-4567" = true ∧ jsPhoneTest "abc" = false) ∧
    ((parseStudentRow (rowDataOf c6WitnessText 0)
        (headerMapOfText c6WitnessText) =
        .ok (some { firstName := cellOf c6WitnessText 0 "first name",
                    lastName := cellOf c6WitnessText 0 "last name",
                    phone := cellOf c6WitnessText 0 "phone" }) ↔
      phoneShapeOk (cellOf c6WitnessText 0 "phone")) ∧
     (¬ phoneShapeOk (cellOf c6WitnessText 0 "phone") →
      ("Row " ++ Nat.repr 2 ++ ": " ++
          ("Invalid phone number format: " ++ cellOf c6WitnessText 0 "phone"))
        ∈ (parseCSVText c6WitnessText).errors.getD [] ∧
      2 ∈ (parseCSVText c6WitnessText).invalidRows.getD [] ∧
      (parseCSVText c6WitnessText).data = some (validEntriesOf c6WitnessText))) :=
  ⟨⟨by decide, by decide, by decide, by decide, by decide, by decide⟩,
   claim_C6 c6WitnessText 0
     (by decide) (by decide) (by decide) (by decide) (by decide) (by decide)⟩

/-! ## Claim C1 — the field splitter implements the specified tokenizer -/

/-- Mode of the specification tokenizer, written as an explicit state
machine over single characters: outside any quoted field, inside a quoted
field, or inside a quoted field having just read one double quote (which
is an escape if another double quote follows, and a mode toggle
otherwise). -/
inductive QuoteMode where
  | outside
  | inside
  | quoteSeen
deriving DecidableEq, Repr

/-- One step of the specification tokenizer on one character: a double
quote toggles the quoted mode, except that a doubled double quote inside
quoted mode contributes one literal quote and stays in quoted mode; a
comma outside quoted mode emits the current field trimmed of surrounding
whitespace; every other character is accumulated. -/
def specSplitStep :
    QuoteMode × String × List String → Char → QuoteMode × String × List String
  | (QuoteMode.outside, cur, fs), c =>
    if c = '"' then (QuoteMode.inside, cur, fs)
    else if c = ',' then (QuoteMode.outside, "", fs ++ [jsTrim cur])
    else (QuoteMode.outside, cur.push c, fs)
  | (QuoteMode.inside, cur, fs), c =>
    if c = '"' then (QuoteMode.quoteSeen, cur, fs)
    else (QuoteMode.inside, cur.push c, fs)
  | (QuoteMode.quoteSeen, cur, fs), c =>
    if c = '"' then (QuoteMode.inside, cur.push '"', fs)
    else if c = ',' then (QuoteMode.outside, "", fs ++ [jsTrim cur])
    else (QuoteMode.outside, cur.push c, fs)

/-- After the loop, the final field is emitted unconditionally. -/
def specFinish : QuoteMode × String × List String → List String
  | (_, cur, fs) => fs ++ [jsTrim cur]

/-- The specified tokenizer: fold the step over the characters of the
line, then emit the final field. -/
def parseCSVRowSpec (row : String) : List String :=
  specFinish (row.data.foldl specSplitStep (QuoteMode.outside, "", []))

/-- The mode of the machine corresponding to the loop's `inQuotes` flag. -/
def modeOf (q : Bool) : QuoteMode :=
  if q then QuoteMode.inside else QuoteMode.outside

theorem specFold_quoteSeen_eq_outside (rest : List Char) (cur : String)
    (fs : List String) (h : ∀ r, rest ≠ '"' :: r) :
    specFinish (rest.foldl specSplitStep (QuoteMode.quoteSeen, cur, fs)) =
      specFinish (rest.foldl specSplitStep (QuoteMode.outside, cur, fs)) := by
  cases rest with
  | nil => rfl
  | cons c rest2 =>
    have hc : c ≠ '"' := fun hcc => h rest2 (by rw [hcc])
    have hstep : specSplitStep (QuoteMode.quoteSeen, cur, fs) c =
        specSplitStep (QuoteMode.outside, cur, fs) c := by
      simp only [specSplitStep]
      rw [if_neg hc, if_neg hc]
    rw [List.foldl_cons, List.foldl_cons, hstep]

/-- The loop of `parseCSVRow` agrees with the specification machine from
any loop state. -/
theorem parseCSVRowAux_eq_spec (cs : List Char) (q : Bool) (cur : String)
    (res : List String) :
    parseCSVRowAux cs q cur res =
      specFinish (cs.foldl specSplitStep (modeOf q, cur, res)) := by
  induction cs, q, cur, res using parseCSVRowAux.induct with
  | case1 q cur res => simp [parseCSVRowAux, specFinish]
  | case2 rest cur res ih =>
    rw [parseCSVRowAux.eq_2, ih]
    have hsteps :
        specSplitStep (specSplitStep (modeOf true, cur, res) '"') '"' =
          (modeOf true, cur.push '"', res) := by
      simp [specSplitStep, modeOf]
    rw [List.foldl_cons, List.foldl_cons, hsteps]
  | case3 rest q cur res h ih =>
    rw [parseCSVRowAux.eq_3 _ _ _ _ h, ih]
    cases q with
    | false => simp [List.foldl_cons, specSplitStep, modeOf]
    | true =>
      rw [List.foldl_cons]
      rw [show specSplitStep (modeOf true, cur, res) '"' =
        (QuoteMode.quoteSeen, cur, res) from by simp [specSplitStep, modeOf]]
      rw [show modeOf (!true) = QuoteMode.outside from rfl]
      exact (specFold_quoteSeen_eq_outside rest cur res
        (fun r hr => h r hr rfl)).symm
  | case4 rest cur res ih =>
    rw [parseCSVRowAux.eq_4, ih]
    simp [List.foldl_cons, specSplitStep, modeOf]
  | case5 c rest q cur res h1 h2 h3 ih =>
    rw [parseCSVRowAux.eq_5 _ _ _ _ _ h2 h1 h3, ih]
    have hc : c ≠ '"' := fun hx => h2 hx
    cases q with
    | true => simp [List.foldl_cons, specSplitStep, modeOf, hc]
    | false =>
      have hcomma : c ≠ ',' := fun hx => h3 hx rfl
      simp [List.foldl_cons, specSplitStep, modeOf, hc, hcomma]

/-- C1: the field splitter tokenizes every line exactly as specified —
it equals the specification state machine on every input — and on the
spec's example line the first emitted field is `Smith, Jr.`, not split at
the embedded comma. -/
theorem claim_C1 :
    (∀ row : String, parseCSVRow row = parseCSVRowSpec row) ∧
    parseCSVRow "\"Smith, Jr.\",Doe,555-000-1111" =
      ["Smith, Jr.", "Doe", "555-000-1111"] := by
  constructor
  · intro row
    simpa [parseCSVRow, parseCSVRowSpec, modeOf] using
      parseCSVRowAux_eq_spec row.data false "" []
  · decide

/-! ## String-level helper lemmas for the export/import round trip -/

theorem strExt {s t : String} (h : s.data = t.data) : s = t := by
  cases s; cases t; cases h; rfl

theorem quote_data : ("\"" : String).data = ['"'] := rfl

theorem comma_data : ("," : String).data = [','] := rfl

theorem newline_data : ("\n" : String).data = ['\n'] := rfl

theorem empty_data : ("" : String).data = [] := rfl

theorem push_data (s : String) (c : Char) : (s.push c).data = s.data ++ [c] :=
  rfl

theorem str_append_empty (s : String) : s ++ "" = s :=
  strExt (by rw [String.data_append, empty_data, List.append_nil])

theorem str_empty_append (s : String) : "" ++ s = s :=
  strExt (by rw [String.data_append, empty_data, List.nil_append])

theorem mk_data (s : String) : String.mk s.data = s := rfl

theorem splitChars_no_newline (l : List Char) (h : '\n' ∉ l) :
    splitChars l = [l] := by
  induction l with
  | nil => rfl
  | cons c rest ih =>
    have hc : c ≠ '\n' := by
      rintro rfl; exact h (List.mem_cons_self _ _)
    have hr : '\n' ∉ rest := fun hm => h (List.mem_cons_of_mem _ hm)
    rw [splitChars, if_neg hc, ih hr]

theorem splitChars_append (l rest : List Char) (h : '\n' ∉ l) :
    splitChars (l ++ '\n' :: rest) = l :: splitChars rest := by
  induction l with
  | nil => rw [List.nil_append, splitChars, if_pos rfl]
  | cons c t ih =>
    have hc : c ≠ '\n' := by
      rintro rfl; exact h (List.mem_cons_self _ _)
    have ht := ih (fun hm => h (List.mem_cons_of_mem _ hm))
    rw [List.cons_append, splitChars, if_neg hc, ht]

theorem joinSep_newline_data (x : String) (xs : List String) (hxs : xs ≠ []) :
    (joinSep "\n" (x :: xs)).data =
      x.data ++ '\n' :: (joinSep "\n" xs).data := by
  cases xs with
  | nil => cases hxs rfl
  | cons y ys =>
    show (x ++ "\n" ++ joinSep "\n" (y :: ys)).data = _
    rw [String.data_append, String.data_append, newline_data,
      List.append_assoc]
    rfl

theorem jsSplitNewline_joinSep (ls : List String) (hne : ls ≠ [])
    (h : ∀ l ∈ ls, '\n' ∉ l.data) :
    jsSplitNewline (joinSep "\n" ls) = ls := by
  induction ls with
  | nil => cases hne rfl
  | cons x xs ih =>
    cases xs with
    | nil =>
      show (splitChars (joinSep "\n" [x]).data).map String.mk = [x]
      have : joinSep "\n" [x] = x := rfl
      rw [this, splitChars_no_newline _ (h x (List.mem_cons_self _ _)),
        List.map_cons, List.map_nil, mk_data]
    | cons y ys =>
      show (splitChars (joinSep "\n" (x :: y :: ys)).data).map String.mk = _
      rw [joinSep_newline_data x (y :: ys) (by simp),
        splitChars_append _ _ (h x (List.mem_cons_self _ _)),
        List.map_cons, mk_data]
      have := ih (by simp) (fun l hl => h l (List.mem_cons_of_mem _ hl))
      rw [show (splitChars (joinSep "\n" (y :: ys)).data).map String.mk =
        jsSplitNewline (joinSep "\n" (y :: ys)) from rfl, this]

theorem mem_dropWhile_of_not {α : Type} (p : α → Bool) :
    ∀ (l : List α) (c : α), c ∈ l → p c = false → c ∈ l.dropWhile p := by
  intro l
  induction l with
  | nil => intro c hc; cases hc
  | cons x t ih =>
    intro c hc hp
    rw [List.dropWhile_cons]
    by_cases hx : p x = true
    · rw [if_pos hx]
      rcases List.mem_cons.mp hc with rfl | hct
      · rw [hp] at hx; cases hx
      · exact ih c hct hp
    · rw [if_neg hx]
      exact hc

theorem jsTrimList_ne_nil {l : List Char} {c : Char} (hc : c ∈ l)
    (hs : jsSpace c = false) : jsTrimList l ≠ [] := by
  intro h
  rw [jsTrimList, List.reverse_eq_nil_iff, List.dropWhile_eq_nil_iff] at h
  have h1 : c ∈ l.dropWhile jsSpace := mem_dropWhile_of_not _ _ _ hc hs
  have h2 : c ∈ (l.dropWhile jsSpace).reverse := List.mem_reverse.mpr h1
  have := h c h2
  rw [hs] at this
  cases this

theorem jsTrim_ne_empty {s : String} {c : Char} (hc : c ∈ s.data)
    (hs : jsSpace c = false) : jsTrim s ≠ "" := by
  intro h
  have hdata : jsTrimList s.data = [] := by
    have := congrArg String.data h
    simpa [jsTrim] using this
  exact jsTrimList_ne_nil hc hs hdata

/-! ## The field splitter on fully quoted rows -/

theorem parseCSVRowAux_push_inside (a : List Char) :
    ∀ (rest : List Char) (cur : String) (res : List String),
      (∀ c ∈ a, c ≠ '"') →
      parseCSVRowAux (a ++ rest) true cur res =
        parseCSVRowAux rest true (cur ++ String.mk a) res := by
  induction a with
  | nil =>
    intro rest cur res _
    rw [List.nil_append, show String.mk [] = "" from rfl, str_append_empty]
  | cons x a ih =>
    intro rest cur res h
    have hx : x ≠ '"' := h x (List.mem_cons_self _ _)
    rw [List.cons_append,
      parseCSVRowAux.eq_5 _ _ _ _ _ (fun hq => hx hq)
        (fun _ hq _ _ => hx hq) (fun _ hb => by cases hb),
      ih rest (cur.push x) res (fun c hc => h c (List.mem_cons_of_mem _ hc))]
    have harg : (cur.push x) ++ String.mk a = cur ++ String.mk (x :: a) :=
      strExt (by
        rw [String.data_append, String.data_append, push_data]
        show (cur.data ++ [x]) ++ a = cur.data ++ (x :: a)
        rw [List.append_assoc]
        rfl)
    rw [harg]

theorem parseCSVRowAux_quoted_field (a : List Char) (rest : List Char)
    (cur : String) (res : List String)
    (ha : ∀ c ∈ a, c ≠ '"') (hrest : ∀ r, rest ≠ '"' :: r) :
    parseCSVRowAux ('"' :: (a ++ ('"' :: rest))) false cur res =
      parseCSVRowAux rest false (cur ++ String.mk a) res := by
  rw [parseCSVRowAux.eq_3 _ _ _ _ (fun _ _ hb => by cases hb)]
  rw [show (!false) = true from rfl]
  rw [parseCSVRowAux_push_inside a ('"' :: rest) cur res ha]
  rw [parseCSVRowAux.eq_3 _ _ _ _ (fun r hr _ => hrest r hr)]
  rfl

theorem quoteField_data (f : String) :
    (quoteField f).data = '"' :: (f.data ++ ['"']) := by
  show (("\"" ++ f) ++ "\"").data = _
  rw [String.data_append, String.data_append, quote_data]
  rfl

theorem joinSep_comma_quoted_data (f : String) (rs : List String)
    (hne : rs ≠ []) :
    (joinSep "," ((f :: rs).map quoteField)).data =
      '"' :: (f.data ++
        ('"' :: ',' :: (joinSep "," (rs.map quoteField)).data)) := by
  cases rs with
  | nil => cases hne rfl
  | cons g gs =>
    show (quoteField f ++ "," ++
      joinSep "," ((g :: gs).map quoteField)).data = _
    rw [String.data_append, String.data_append, comma_data, quoteField_data]
    simp [List.append_assoc]

theorem parseCSVRowAux_joined (fs : List String) :
    ∀ (res : List String), fs ≠ [] →
      (∀ f ∈ fs, ∀ c ∈ f.data, c ≠ '"') →
      parseCSVRowAux (joinSep "," (fs.map quoteField)).data false "" res =
        res ++ fs.map jsTrim := by
  induction fs with
  | nil => intro res h; cases h rfl
  | cons f rs ih =>
    intro res _ hq
    have hf : ∀ c ∈ f.data, c ≠ '"' := hq f (List.mem_cons_self _ _)
    cases rs with
    | nil =>
      rw [show (joinSep "," ([f].map quoteField)).data =
        '"' :: (f.data ++ ('"' :: ([] : List Char))) from by
          rw [List.map_cons, List.map_nil]
          exact quoteField_data f]
      rw [parseCSVRowAux_quoted_field f.data [] "" res hf
        (fun r hr => by cases hr)]
      rw [parseCSVRowAux.eq_1, str_empty_append, mk_data]
      rfl
    | cons g gs =>
      rw [joinSep_comma_quoted_data f (g :: gs) (by simp)]
      rw [parseCSVRowAux_quoted_field f.data
        (',' :: (joinSep "," ((g :: gs).map quoteField)).data) "" res hf
        (fun r hr => by injection hr with h1 _; exact absurd h1 (by decide))]
      rw [parseCSVRowAux.eq_4, str_empty_append, mk_data]
      rw [ih (res ++ [jsTrim f]) (by simp)
        (fun x hx => hq x (List.mem_cons_of_mem _ hx))]
      rw [List.map_cons, List.append_assoc]
      rfl

theorem parseCSVRow_studentRowLine (s : Student)
    (h : ∀ f ∈ studentRowFields s, ∀ c ∈ f.data, c ≠ '"') :
    parseCSVRow (studentRowLine s) = (studentRowFields s).map jsTrim := by
  show parseCSVRowAux
    (joinSep "," ((studentRowFields s).map quoteField)).data false "" [] = _
  rw [parseCSVRowAux_joined (studentRowFields s) []
    (by simp [studentRowFields]) h]
  rfl

/-! ## Quote stripping and row validation on exported rows -/

theorem mem_of_getLast_eq {α : Type} :
    ∀ (l : List α) (a : α), l.getLast? = some a → a ∈ l := by
  intro l
  induction l with
  | nil => intro a h; cases h
  | cons x t ih =>
    intro a h
    cases t with
    | nil =>
      cases h
      exact List.mem_cons_self _ _
    | cons y ts =>
      rw [List.getLast?_cons_cons] at h
      exact List.mem_cons_of_mem _ (ih a h)

theorem stripQuotes_of_no_quote (s : String)
    (h : ∀ c ∈ s.data, c ≠ '"') : stripQuotes s = s := by
  apply strExt
  show stripQuotesList s.data = s.data
  simp only [stripQuotesList]
  have hhead : ¬ s.data.head? = some '"' := by
    cases hd : s.data with
    | nil => simp
    | cons c t =>
      simp only [List.head?_cons, Option.some.injEq]
      intro hc
      exact h c (hd ▸ List.mem_cons_self _ _) hc
  rw [if_neg hhead]
  have hlast : ¬ s.data.getLast? = some '"' := by
    intro hl
    exact h '"' (mem_of_getLast_eq _ _ hl) rfl
  rw [if_neg hlast]

/-- Mirror of the export header map once the exported header line has
been tokenized and lower-cased. -/
def exportHeaderMap : List (String × Nat) :=
  [("first name", 0), ("last name", 1), ("phone", 2), ("status", 3),
   ("enrollment date", 4)]

theorem parseStudentRow_export_row (f1 f2 f3 st dt : String)
    (h1 : f1 ≠ "") (h2 : f2 ≠ "") (h3 : f3 ≠ "")
    (q1 : ∀ c ∈ f1.data, c ≠ '"') (q2 : ∀ c ∈ f2.data, c ≠ '"')
    (q3 : ∀ c ∈ f3.data, c ≠ '"')
    (t1 : jsTrim f1 = f1) (t2 : jsTrim f2 = f2) (t3 : jsTrim f3 = f3)
    (hp : jsPhoneTest f3 = true) :
    parseStudentRow [f1, f2, f3, st, dt] exportHeaderMap =
      .ok (some { firstName := f1, lastName := f2, phone := f3 }) := by
  have g1 : getCell [f1, f2, f3, st, dt] exportHeaderMap "first name" = f1 := by
    simp only [getCell]
    rw [show lookupLast exportHeaderMap "first name" = some 0 from by decide]
    show jsTrim (stripQuotes f1) = f1
    rw [stripQuotes_of_no_quote f1 q1, t1]
  have g2 : getCell [f1, f2, f3, st, dt] exportHeaderMap "last name" = f2 := by
    simp only [getCell]
    rw [show lookupLast exportHeaderMap "last name" = some 1 from by decide]
    show jsTrim (stripQuotes f2) = f2
    rw [stripQuotes_of_no_quote f2 q2, t2]
  have g3 : getCell [f1, f2, f3, st, dt] exportHeaderMap "phone" = f3 := by
    simp only [getCell]
    rw [show lookupLast exportHeaderMap "phone" = some 2 from by decide]
    show jsTrim (stripQuotes f3) = f3
    rw [stripQuotes_of_no_quote f3 q3, t3]
  simp only [parseStudentRow, g1, g2, g3]
  rw [if_neg (by simp [h1, h2, h3]), if_neg (by simp [hp])]

/-! ## Good fields and line-level facts about exported rows -/

/-- A field value that survives the export/import round trip unchanged:
non-empty, unchanged by trimming, and free of double quotes and
newlines. -/
def goodField (v : String) : Prop :=
  v ≠ "" ∧ jsTrim v = v ∧ ∀ c ∈ v.data, c ≠ '"' ∧ c ≠ '\n'

/-- A student whose exported row re-imports to exactly its three
required values. -/
def goodStudent (s : Student) : Prop :=
  goodField s.firstName ∧ goodField s.lastName ∧ goodField s.phone ∧
  jsPhoneTest s.phone = true ∧
  ∀ c ∈ s.enrollmentDate.data, c ≠ '"' ∧ c ≠ '\n'

/-- Projection of a student to the entry the import path produces. -/
def toCreate (s : Student) : CreateStudentData :=
  { firstName := s.firstName, lastName := s.lastName, phone := s.phone }

theorem statusStr_clean (st : StudentStatus) :
    ∀ c ∈ (statusStr st).data, c ≠ '"' ∧ c ≠ '\n' := by
  cases st <;> decide

theorem statusStr_trim (st : StudentStatus) :
    jsTrim (statusStr st) = statusStr st := by
  cases st <;> decide

theorem studentRowFields_clean (s : Student) (hs : goodStudent s) :
    ∀ f ∈ studentRowFields s, ∀ c ∈ f.data, c ≠ '"' ∧ c ≠ '\n' := by
  obtain ⟨⟨_, _, hq1⟩, ⟨_, _, hq2⟩, ⟨_, _, hq3⟩, _, hqd⟩ := hs
  intro f hf
  simp only [studentRowFields, List.mem_cons, List.not_mem_nil, or_false] at hf
  rcases hf with rfl | rfl | rfl | rfl | rfl
  · exact hq1
  · exact hq2
  · exact hq3
  · exact statusStr_clean s.status
  · exact hqd

theorem mem_joinSep_quoted (c : Char) : ∀ (fs : List String),
    c ∈ (joinSep "," (fs.map quoteField)).data →
    c = '"' ∨ c = ',' ∨ ∃ f ∈ fs, c ∈ f.data := by
  intro fs
  induction fs with
  | nil => intro h; cases h
  | cons f rs ih =>
    intro h
    cases rs with
    | nil =>
      rw [List.map_cons, List.map_nil,
        show joinSep "," [quoteField f] = quoteField f from rfl,
        quoteField_data] at h
      rcases List.mem_cons.mp h with rfl | h2
      · exact Or.inl rfl
      rcases List.mem_append.mp h2 with h3 | h3
      · exact Or.inr (Or.inr ⟨f, List.mem_cons_self _ _, h3⟩)
      · rw [List.mem_singleton] at h3
        exact Or.inl h3
    | cons g gs =>
      rw [joinSep_comma_quoted_data f (g :: gs) (by simp)] at h
      rcases List.mem_cons.mp h with rfl | h2
      · exact Or.inl rfl
      rcases List.mem_append.mp h2 with h3 | h3
      · exact Or.inr (Or.inr ⟨f, List.mem_cons_self _ _, h3⟩)
      rcases List.mem_cons.mp h3 with rfl | h4
      · exact Or.inl rfl
      rcases List.mem_cons.mp h4 with rfl | h5
      · exact Or.inr (Or.inl rfl)
      rcases ih h5 with h6 | h6 | ⟨g', hg', hc⟩
      · exact Or.inl h6
      · exact Or.inr (Or.inl h6)
      · exact Or.inr (Or.inr ⟨g', List.mem_cons_of_mem _ hg', hc⟩)

theorem quote_mem_joinSep_quoted (fs : List String) (h : fs ≠ []) :
    '"' ∈ (joinSep "," (fs.map quoteField)).data := by
  cases fs with
  | nil => cases h rfl
  | cons f rs =>
    cases rs with
    | nil =>
      rw [List.map_cons, List.map_nil,
        show joinSep "," [quoteField f] = quoteField f from rfl,
        quoteField_data]
      exact List.mem_cons_self _ _
    | cons g gs =>
      rw [joinSep_comma_quoted_data f (g :: gs) (by simp)]
      exact List.mem_cons_self _ _

theorem studentRowLine_no_newline (s : Student) (hs : goodStudent s) :
    '\n' ∉ (studentRowLine s).data := by
  intro hmem
  rcases mem_joinSep_quoted '\n' (studentRowFields s) hmem with h | h | ⟨f, hf, hc⟩
  · cases h
  · cases h
  · exact (studentRowFields_clean s hs f hf '\n' hc).2 rfl

theorem export_lines (R : List Student) (hg : ∀ s ∈ R, goodStudent s) :
    nonEmptyLines (exportCSVContent R) =
      joinSep "," exportHeaders :: R.map studentRowLine := by
  have hsplit : jsSplitNewline
      (joinSep "\n" (joinSep "," exportHeaders :: R.map studentRowLine)) =
      joinSep "," exportHeaders :: R.map studentRowLine := by
    apply jsSplitNewline_joinSep _ (by simp)
    intro l hl
    rcases List.mem_cons.mp hl with rfl | hl2
    · decide
    · rcases List.mem_map.mp hl2 with ⟨s, hsm, rfl⟩
      exact studentRowLine_no_newline s (hg s hsm)
  rw [nonEmptyLines, exportCSVContent, hsplit]
  apply List.filter_eq_self.mpr
  intro l hl
  rcases List.mem_cons.mp hl with rfl | hl2
  · decide
  · rcases List.mem_map.mp hl2 with ⟨s, hsm, rfl⟩
    have hquote : '"' ∈ (studentRowLine s).data :=
      quote_mem_joinSep_quoted _ (by simp [studentRowFields])
    exact bne_iff_ne.mpr (jsTrim_ne_empty hquote (by decide))

theorem headerMapOfText_export (R : List Student)
    (hg : ∀ s ∈ R, goodStudent s) :
    headerMapOfText (exportCSVContent R) = exportHeaderMap := by
  rw [headerMapOfText, export_lines R hg, List.getD_cons_zero]
  decide

theorem missingRequired_export (R : List Student)
    (hg : ∀ s ∈ R, goodStudent s) :
    missingRequired (exportCSVContent R) = [] := by
  rw [missingRequired, headerMapOfText_export R hg]
  decide

theorem processRows_export (R : List Student)
    (hg : ∀ s ∈ R, goodStudent s) :
    ∀ i, processRows exportHeaderMap i (R.map studentRowLine) =
      (R.map toCreate, [], []) := by
  induction R with
  | nil => intro i; rfl
  | cons s R2 ih =>
    intro i
    have hs := hg s (List.mem_cons_self _ _)
    have hR2 : ∀ x ∈ R2, goodStudent x :=
      fun x hx => hg x (List.mem_cons_of_mem _ hx)
    have hrow : parseCSVRow (studentRowLine s) =
        (studentRowFields s).map jsTrim :=
      parseCSVRow_studentRowLine s
        (fun f hf c hc => (studentRowFields_clean s hs f hf c hc).1)
    have htrim : (studentRowFields s).map jsTrim =
        [s.firstName, s.lastName, s.phone, statusStr s.status,
         jsTrim s.enrollmentDate] := by
      obtain ⟨⟨_, ht1, _⟩, ⟨_, ht2, _⟩, ⟨_, ht3, _⟩, _, _⟩ := hs
      simp [studentRowFields, ht1, ht2, ht3, statusStr_trim s.status]
    have hps : parseStudentRow
        [s.firstName, s.lastName, s.phone, statusStr s.status,
         jsTrim s.enrollmentDate] exportHeaderMap =
        .ok (some (toCreate s)) := by
      obtain ⟨⟨h1, t1, q1⟩, ⟨h2, t2, q2⟩, ⟨h3, t3, q3⟩, hp, _⟩ := hs
      exact parseStudentRow_export_row _ _ _ _ _ h1 h2 h3
        (fun c hc => (q1 c hc).1) (fun c hc => (q2 c hc).1)
        (fun c hc => (q3 c hc).1) t1 t2 t3 hp
    simp only [List.map_cons, processRows]
    rw [ih hR2 (i + 1), hrow, htrim]
    rw [if_neg (by simp)]
    rw [hps]

/-! ## Claim C2 — export/import round trip -/

/-- C2 (amended: besides the quote asymmetry the claim already notes, the
round trip also requires the first name, last name and phone to be
non-empty, unchanged by trimming and newline-free, the phone to pass
the shape check of the import path, and the enrollment date to be quote-
and newline-free): parsing the exported document of a non-empty roster
succeeds and yields exactly one entry per record, in order, with the
record's first name, last name and phone. -/
theorem claim_C2 (R : List Student) (hne : R ≠ [])
    (hg : ∀ s ∈ R, goodStudent s) :
    ∃ content, exportStudentsToCSV R = some content ∧
      (parseCSVText content).success = true ∧
      (parseCSVText content).data = some (R.map toCreate) ∧
      (parseCSVText content).errors = none ∧
      (parseCSVText content).invalidRows = none := by
  have hlines := export_lines R hg
  have hRlen : R.length ≠ 0 := fun h => hne (List.length_eq_zero.mp h)
  refine ⟨exportCSVContent R, ?_, ?_, ?_, ?_, ?_⟩
  · rw [exportStudentsToCSV, if_neg hRlen]
  all_goals
    simp only [parseCSVText]
    rw [if_neg (by
      rw [hlines]
      simp only [List.length_cons, List.length_map]
      omega)]
    rw [missingRequired_export R hg, headerMapOfText_export R hg]
    rw [if_neg (by simp)]
    rw [hlines]
    rw [show (joinSep "," exportHeaders :: R.map studentRowLine).drop 1 =
      R.map studentRowLine from rfl]
    rw [processRows_export R hg 1]
  · show decide (0 < (R.map toCreate).length) = true
    rw [decide_eq_true_eq, List.length_map]
    omega
  · rfl
  · rfl

/-- Student used by the counterexample to C2 as stated: its first name
has a leading space and no field contains a double quote. -/
def c2Student : Student :=
  { id := "id1", firstName := " John", lastName := "Doe",
    phone := "5551234567", enrollmentDate := "2024-01-01",
    status := StudentStatus.active, userId := "u1" }

/-- Counterexample to C2 as stated: no field of `c2Student` contains a
literal double quote, yet re-importing its exported row yields a first
name `John` different from the record's `' John'` — the splitter and the
row validator trim surrounding whitespace, another non-round-trip case
the claim does not except. -/
theorem claim_C2_counterexample :
    (∀ c ∈ c2Student.firstName.data, c ≠ '"') ∧
    (∀ c ∈ c2Student.lastName.data, c ≠ '"') ∧
    (∀ c ∈ c2Student.phone.data, c ≠ '"') ∧
    (∀ c ∈ c2Student.enrollmentDate.data, c ≠ '"') ∧
    exportStudentsToCSV [c2Student] = some (exportCSVContent [c2Student]) ∧
    (parseCSVText (exportCSVContent [c2Student])).success = true ∧
    (parseCSVText (exportCSVContent [c2Student])).data =
      some [{ firstName := "John", lastName := "Doe",
              phone := "5551234567" }] ∧
    [c2Student].map toCreate =
      [{ firstName := " John", lastName := "Doe", phone := "5551234567" }] ∧
    ({ firstName := "John", lastName := "Doe", phone := "5551234567" } :
        CreateStudentData) ≠
      { firstName := " John", lastName := "Doe", phone := "5551234567" } := by
  decide

instance decGoodField (v : String) : Decidable (goodField v) := by
  unfold goodField
  infer_instance

instance decGoodStudent (s : Student) : Decidable (goodStudent s) := by
  unfold goodStudent
  infer_instance

/-- Student used by the witness of C2's amended statement. -/
def c2GoodStudent : Student :=
  { id := "id2", firstName := "John", lastName := "Doe",
    phone := "5551234567", enrollmentDate := "2024-01-01",
    status := StudentStatus.active, userId := "u1" }

/-- Witness for C2 at a concrete one-record roster. -/
theorem claim_C2_witness :
    (([c2GoodStudent] : List Student) ≠ [] ∧
      ∀ s ∈ [c2GoodStudent], goodStudent s) ∧
    (∃ content, exportStudentsToCSV [c2GoodStudent] = some content ∧
      (parseCSVText content).success = true ∧
      (parseCSVText content).data = some ([c2GoodStudent].map toCreate) ∧
      (parseCSVText content).errors = none ∧
      (parseCSVText content).invalidRows = none) :=
  ⟨⟨by decide, by decide⟩, claim_C2 [c2GoodStudent] (by decide) (by decide)⟩

/-! ## Claim C4 — shape of the exported document -/

/-- A field value containing no raw newline character (so that it
occupies a single CSV line). -/
def noNewline (v : String) : Prop :=
  ∀ c ∈ v.data, c ≠ '\n'

instance decNoNewline (v : String) : Decidable (noNewline v) := by
  unfold noNewline
  infer_instance

theorem studentRowLine_eq (s : Student) :
    studentRowLine s =
      "\"" ++ s.firstName ++ "\"" ++ "," ++ "\"" ++ s.lastName ++ "\"" ++
      "," ++ "\"" ++ s.phone ++ "\"" ++ "," ++ "\"" ++ statusStr s.status ++
      "\"" ++ "," ++ "\"" ++ s.enrollmentDate ++ "\"" := by
  apply strExt
  simp only [studentRowLine, studentRowFields, List.map_cons, List.map_nil,
    joinSep, quoteField, String.data_append, quote_data, comma_data,
    List.append_assoc, List.cons_append, List.singleton_append,
    List.nil_append]

/-- C4: exporting a non-empty roster whose fields are newline-free
produces a document whose first line is the fixed five-column header and
whose following lines are one row per record, in input order, with every
field value wrapped in double quotes unconditionally. -/
theorem claim_C4 (R : List Student) (hne : R ≠ [])
    (hnl : ∀ s ∈ R, noNewline s.firstName ∧ noNewline s.lastName ∧
      noNewline s.phone ∧ noNewline s.enrollmentDate) :
    ∃ content, exportStudentsToCSV R = some content ∧
      jsSplitNewline content =
        "First Name,Last Name,Phone,Status,Enrollment Date" ::
          R.map (fun s =>
            "\"" ++ s.firstName ++ "\"" ++ "," ++ "\"" ++ s.lastName ++
            "\"" ++ "," ++ "\"" ++ s.phone ++ "\"" ++ "," ++ "\"" ++
            statusStr s.status ++ "\"" ++ "," ++ "\"" ++ s.enrollmentDate ++
            "\"") := by
  have hRlen : R.length ≠ 0 := fun h => hne (List.length_eq_zero.mp h)
  refine ⟨exportCSVContent R,
    by rw [exportStudentsToCSV, if_neg hRlen], ?_⟩
  have hnlLine :
      ∀ l ∈ joinSep "," exportHeaders :: R.map studentRowLine,
        '\n' ∉ l.data := by
    intro l hl
    rcases List.mem_cons.mp hl with rfl | hl2
    · decide
    · rcases List.mem_map.mp hl2 with ⟨s, hsm, rfl⟩
      intro hmem
      rcases mem_joinSep_quoted '\n' (studentRowFields s) hmem with
        h | h | ⟨f, hf, hc⟩
      · cases h
      · cases h
      · obtain ⟨n1, n2, n3, n4⟩ := hnl s hsm
        simp only [studentRowFields, List.mem_cons, List.not_mem_nil,
          or_false] at hf
        rcases hf with rfl | rfl | rfl | rfl | rfl
        · exact n1 _ hc rfl
        · exact n2 _ hc rfl
        · exact n3 _ hc rfl
        · exact (statusStr_clean s.status _ hc).2 rfl
        · exact n4 _ hc rfl
  rw [exportCSVContent, jsSplitNewline_joinSep _ (by simp) hnlLine]
  have hhead : joinSep "," exportHeaders =
      "First Name,Last Name,Phone,Status,Enrollment Date" := by decide
  have hmap : R.map studentRowLine =
      R.map (fun s =>
        "\"" ++ s.firstName ++ "\"" ++ "," ++ "\"" ++ s.lastName ++
        "\"" ++ "," ++ "\"" ++ s.phone ++ "\"" ++ "," ++ "\"" ++
        statusStr s.status ++ "\"" ++ "," ++ "\"" ++ s.enrollmentDate ++
        "\"") :=
    congrFun (congrArg List.map (funext studentRowLine_eq)) R
  rw [hhead, hmap]

/-- Witness for C4 at a concrete one-record roster. -/
theorem claim_C4_witness :
    (([c2GoodStudent] : List Student) ≠ [] ∧
      ∀ s ∈ [c2GoodStudent], noNewline s.firstName ∧ noNewline s.lastName ∧
        noNewline s.phone ∧ noNewline s.enrollmentDate) ∧
    (∃ content, exportStudentsToCSV [c2GoodStudent] = some content ∧
      jsSplitNewline content =
        "First Name,Last Name,Phone,Status,Enrollment Date" ::
          [c2GoodStudent].map (fun s =>
            "\"" ++ s.firstName ++ "\"" ++ "," ++ "\"" ++ s.lastName ++
            "\"" ++ "," ++ "\"" ++ s.phone ++ "\"" ++ "," ++ "\"" ++
            statusStr s.status ++ "\"" ++ "," ++ "\"" ++ s.enrollmentDate ++
            "\"")) :=
  ⟨⟨by decide, by decide⟩, claim_C4 [c2GoodStudent] (by decide) (by decide)⟩
